import Mathlib

/-!
Verification development for the Sol2Rust repository: a shallow embedding of
the deployment argument-normalization flow, the fee-strategy selection, the
deployment outcome computation (client/src/lib/web3.ts, deployContract), the
pseudo-compiler bytecode validation (gemini.ts, simulateCompileWithGemini) and
the HTTP input validation of the server routes (routes.ts, registerRoutes).

JavaScript values flowing through the normalizer are modelled by `JsonVal`
(JSON values: the arguments text is parsed with JSON.parse, so NaN and
undefined cannot appear among the parsed arguments).  Awaited external
results (sending a transaction, waiting for a receipt) are passed in as
explicit `Except`/`Option` oracles, matching the code's own handling of
thrown errors and null results.
-/

namespace Sol2Rust

/-- A JSON value, the result of JSON.parse on user or model supplied text. -/
inductive JsonVal : Type where
  | str (s : String)
  | num (n : Int)
  | bool (b : Bool)
  | null
  | arr (elems : List JsonVal)
  | obj (fields : List (String × JsonVal))
deriving Repr

/-- One constructor parameter as it appears in the model-generated ABI.
Both fields are optional because the ABI is untrusted JSON: an entry may
lack the name or the type field (JavaScript then reads undefined). -/
structure AbiParam : Type where
  name : Option String
  ty : Option String
deriving Repr, DecidableEq

/-- One ABI entry.  `type` is the JSON "type" tag, `inputs` the parameter
list; either may be absent in malformed model output. -/
structure AbiItem : Type where
  type : Option String
  inputs : Option (List AbiParam)
deriving Repr, DecidableEq

/-- JavaScript String.prototype.includes, on explicit character lists:
true iff `pat` occurs contiguously inside `s`. -/
def hasSub (s pat : List Char) : Bool :=
  match s with
  | [] => pat.isEmpty
  | c :: t => pat.isPrefixOf (c :: t) || hasSub t pat

/-- String.prototype.includes on Lean strings. -/
def strContains (s pat : String) : Bool :=
  hasSub s.toList pat.toList

/-- String.prototype.startsWith. -/
def strStartsWith (s pat : String) : Bool :=
  pat.data.isPrefixOf s.data

/-- The ASCII whitespace stripped by String.prototype.trim. -/
def isJsSpace (c : Char) : Bool :=
  c = ' ' || c = '\t' || c = '\n' || c = '\r'

/-- String.prototype.trim on character lists. -/
def trimChars (cs : List Char) : List Char :=
  ((cs.dropWhile isJsSpace).reverse.dropWhile isJsSpace).reverse

/-- String.prototype.trim. -/
def jsTrim (s : String) : String :=
  String.mk (trimChars s.data)

/-- String.prototype.toLowerCase (ASCII). -/
def jsToLower (s : String) : String :=
  String.mk (s.data.map Char.toLower)

/-- The EVM zero address, used by the code as the address-typed default. -/
def zeroAddress : String := "0x0000000000000000000000000000000000000000"

/-! ## Fee strategy selection (web3.ts lines 157-174)

The code builds `deployOptions` from the gas limit, then either spreads in
maxFeePerGas / maxPriorityFeePerGas (chainId 42161 or 421613) or sets
gasPrice (all other chains).  ethers.parseUnits('0.1', 'gwei') is 10^8 wei
and ethers.parseUnits('0.01', 'gwei') is 10^7 wei. -/

/-- The transaction fee fields of the deployment options object.  A field
that the code never sets on a branch is `none`. -/
structure DeployOptions : Type where
  gasLimit : Nat
  gasPrice : Option Nat
  maxFeePerGas : Option Nat
  maxPriorityFeePerGas : Option Nat
deriving Repr, DecidableEq

/-- deployOptions construction from web3.ts: base options hold the gas
limit; chainId 42161/421613 add the two EIP-1559 fields, every other chain
sets gasPrice to 10 gwei. -/
def buildDeployOptions (chainId : Nat) (gasLimit : Nat) : DeployOptions :=
  if chainId = 42161 ∨ chainId = 421613 then
    { gasLimit := gasLimit
      gasPrice := none
      maxFeePerGas := some 100000000
      maxPriorityFeePerGas := some 10000000 }
  else
    { gasLimit := gasLimit
      gasPrice := some 10000000000
      maxFeePerGas := none
      maxPriorityFeePerGas := none }

/-! ## Server route input validation (routes.ts, registerRoutes) -/

/-- The JSON body of POST /api/convert: `solidityCode` may be absent. -/
structure ConvertRequestBody : Type where
  solidityCode : Option String
deriving Repr, DecidableEq

/-- The JSON body of POST /api/compile. -/
structure CompileRequestBody : Type where
  rustCode : Option String
  contractName : Option String
deriving Repr, DecidableEq

/-- An HTTP error response produced by res.status(...).json(...). -/
structure ApiErrorResponse : Type where
  status : Nat
  success : Bool
  error : String
deriving Repr, DecidableEq

/-- What a route handler does before any asynchronous work: either reject
with an error response, or proceed into the model gateway call with the
validated fields. -/
inductive RouteStep : Type where
  | reject (resp : ApiErrorResponse)
  | callGateway (payload : List String)
deriving Repr, DecidableEq

/-- JavaScript truthiness of a possibly-absent string field: undefined and
the empty string are falsy. -/
def jsTruthyStr : Option String → Bool
  | none => false
  | some s => s ≠ ""

/-- The validation prefix of the POST /api/convert handler: a falsy
solidityCode is rejected with 400 before convertSolidityToRust is called. -/
def convertRoute (body : ConvertRequestBody) : RouteStep :=
  if jsTruthyStr body.solidityCode then
    RouteStep.callGateway [body.solidityCode.getD ""]
  else
    RouteStep.reject { status := 400, success := false, error := "Solidity code is required" }

/-- The validation prefix of the POST /api/compile handler: a falsy
rustCode is rejected first, then a falsy contractName, each with 400,
before compileRustToEVM is called. -/
def compileRoute (body : CompileRequestBody) : RouteStep :=
  if ¬ jsTruthyStr body.rustCode then
    RouteStep.reject { status := 400, success := false, error := "Rust code is required" }
  else if ¬ jsTruthyStr body.contractName then
    RouteStep.reject { status := 400, success := false, error := "Contract name is required" }
  else
    RouteStep.callGateway [body.rustCode.getD "", body.contractName.getD ""]

/-- Whether a route step reaches the model gateway. -/
def RouteStep.invokesGateway : RouteStep → Bool
  | RouteStep.reject _ => false
  | RouteStep.callGateway _ => true

/-! ## Constructor argument normalization (web3.ts lines 112-147)

The code parses params.constructorArgs with JSON.parse inside a try block,
coerces the result to an array (Array.isArray ? as-is : Object.values),
pads it with type-based defaults up to the constructor input count, and
truncates it to that count.  Any exception thrown inside the try block is
caught and replaced by the empty argument list.

The parse outcome is the input of the embedding: `none` stands for text
that JSON.parse rejects, `some v` for text parsing to the value `v`. -/

/-- Array.isArray(v) ? v : Object.values(v).  Object.values on null throws
a TypeError; on a string it returns the list of its single-character
strings (the indexed own properties); numbers and booleans have no own
enumerable properties, giving the empty list. -/
def jsArrayOrValues : JsonVal → Except String (List JsonVal)
  | JsonVal.arr xs => Except.ok xs
  | JsonVal.obj fields => Except.ok (fields.map (fun f => f.2))
  | JsonVal.str s => Except.ok (s.toList.map (fun c => JsonVal.str (String.singleton c)))
  | JsonVal.num _ => Except.ok []
  | JsonVal.bool _ => Except.ok []
  | JsonVal.null => Except.error "TypeError: cannot convert null to object"

/-- The default pushed for one missing argument, chosen by the declared
parameter type (the if/else chain over nextInput.type.includes in
web3.ts lines 127-137). -/
def defaultForType (ty : String) : JsonVal :=
  if strContains ty "string" then JsonVal.str ""
  else if strContains ty "int" then JsonVal.str "0"
  else if strContains ty "bool" then JsonVal.bool false
  else if strContains ty "address" then JsonVal.str zeroAddress
  else JsonVal.str "0"

/-- The while loop of web3.ts lines 124-138: as long as the argument list
is shorter than the input list, read the input at the current length and
push its type default.  Reading nextInput.type when the type field is
absent throws (undefined.includes is a TypeError). -/
def padArgsLoop (inputs : List AbiParam) (args : List JsonVal) :
    Except String (List JsonVal) :=
  if h : args.length < inputs.length then
    match (inputs.get ⟨args.length, h⟩).ty with
    | none => Except.error "TypeError: cannot read includes of undefined"
    | some ty => padArgsLoop inputs (args ++ [defaultForType ty])
  else
    Except.ok args
termination_by inputs.length - args.length
decreasing_by simp; omega

/-- The body of the try block in web3.ts lines 114-142: parse, coerce to an
array, then (when the ABI has a constructor entry with an inputs field) pad
and truncate to the input count. -/
def parseArgsBody (parsed : Option JsonVal) (abi : List AbiItem) :
    Except String (List JsonVal) :=
  match parsed with
  | none => Except.error "SyntaxError: Unexpected token in JSON"
  | some v =>
    match jsArrayOrValues v with
    | Except.error e => Except.error e
    | Except.ok args =>
      match abi.find? (fun item => item.type == some "constructor") with
      | some constructorAbi =>
        match constructorAbi.inputs with
        | some inputs =>
          match padArgsLoop inputs args with
          | Except.error e => Except.error e
          | Except.ok padded => Except.ok (padded.take inputs.length)
        | none => Except.ok args
      | none => Except.ok args

/-- The whole try/catch of web3.ts lines 112-147: the catch block replaces
any thrown error by the empty argument list, so this step always resolves. -/
def parseArgsStep (parsed : Option JsonVal) (abi : List AbiItem) :
    Except String (List JsonVal) :=
  match parseArgsBody parsed abi with
  | Except.ok args => Except.ok args
  | Except.error _ => Except.ok []

/-- The normalized constructor argument list that the deployment flow
continues with. -/
def normalizeArgs (parsed : Option JsonVal) (abi : List AbiItem) : List JsonVal :=
  match parseArgsStep parsed abi with
  | Except.ok args => args
  | Except.error _ => []

/-! ## Per-argument numeric coercion on the Arbitrum path

web3.ts carries two versions of this map (the file holds two revisions of
deployContract).  The first revision (lines 196-215) keeps the original
string after a successful numeric check; the second (lines 593-614)
replaces it by the converted number and additionally repairs address
strings lacking the 0x prefix.

JavaScript Number(s) and parseInt(s, 10) are modelled on the strings this
flow feeds them: optionally signed decimal integer literals.  Number
returns 0 on the empty or all-whitespace string, the integer value on a
signed digit string, and NaN (here `none`) otherwise; parseInt consumes
the longest leading digit run and is NaN when there is none. -/

/-- Value of a nonempty list of decimal digit characters. -/
def digitsVal (cs : List Char) : Nat :=
  cs.foldl (fun a c => a * 10 + (c.toNat - 48)) 0

/-- JavaScript Number(s) restricted to integer literals: `none` is NaN. -/
def jsNumber (s : String) : Option Int :=
  match trimChars s.data with
  | [] => some 0
  | '+' :: rest =>
    if !rest.isEmpty && rest.all Char.isDigit then some (digitsVal rest) else none
  | '-' :: rest =>
    if !rest.isEmpty && rest.all Char.isDigit then some (-(digitsVal rest : Int)) else none
  | cs =>
    if cs.all Char.isDigit then some (digitsVal cs) else none

/-- JavaScript parseInt(s, 10): sign, then the longest leading digit run;
`none` is NaN (no digits at all). -/
def jsParseInt (s : String) : Option Int :=
  let core : List Char → Option Int := fun cs =>
    let ds := cs.takeWhile Char.isDigit
    if ds.isEmpty then none else some (digitsVal ds)
  match trimChars s.data with
  | '+' :: rest => core rest
  | '-' :: rest => (core rest).map (fun n => -n)
  | cs => core cs

/-- inputs[index]?.type || '' : the declared type of the slot, or the
empty string when the slot or its type field is missing. -/
def inputTypeAt (inputs : List AbiParam) (i : Nat) : String :=
  ((inputs.get? i).bind AbiParam.ty).getD ""

/-- One argument of the coercion map in the first revision of
deployContract (web3.ts lines 196-215): uint-typed string slots become 0
when empty or NaN and are otherwise kept as the original string (ethers
converts them later); everything else passes through.  The token/decimals
branch of that revision is unreachable (every uint-typed string already
returned) but is kept for fidelity. -/
def processArgV1 (inputType : String) (contractName : String) (index : Nat)
    (arg : JsonVal) : JsonVal :=
  match arg with
  | JsonVal.str s =>
    if strContains inputType "uint" then
      if s = "" || (jsNumber s).isNone then JsonVal.num 0 else JsonVal.str s
    else if strContains inputType "uint" && strContains (jsToLower contractName) "token"
        && index == 2 then
      match jsNumber s with
      | some n => if n = 0 then JsonVal.num 8 else JsonVal.num n
      | none => JsonVal.num 8
    else arg
  | _ => arg

/-- One argument of the coercion map in the second revision of
deployContract (web3.ts lines 593-610): uint-typed string slots become 0
when empty or NaN and otherwise the converted number; address-typed string
slots lacking the 0x prefix become the zero address; everything else
passes through. -/
def processArgV2 (inputType : String) (arg : JsonVal) : JsonVal :=
  match arg with
  | JsonVal.str s =>
    if strContains inputType "uint" then
      if s = "" || (jsNumber s).isNone then JsonVal.num 0
      else JsonVal.num ((jsNumber s).getD 0)
    else if strContains inputType "address" && !(strStartsWith s "0x") then
      JsonVal.str zeroAddress
    else arg
  | _ => arg

/-- constructorArgs.map((arg, index) => ...) with the second-revision
coercion, reading each slot's declared type from the constructor inputs. -/
def processArgsArb (inputs : List AbiParam) (args : List JsonVal) : List JsonVal :=
  args.mapIdx (fun i arg => processArgV2 (inputTypeAt inputs i) arg)

/-- Same map with the first-revision coercion. -/
def processArgsArbV1 (contractName : String) (inputs : List AbiParam)
    (args : List JsonVal) : List JsonVal :=
  args.mapIdx (fun i arg => processArgV1 (inputTypeAt inputs i) contractName i arg)

/-! ## Token argument rebuilding on the Arbitrum path (web3.ts lines 503-590)

When the contract name contains "token" (case-insensitive), the second
revision of deployContract discards the parsed arguments and rebuilds a
typed list from the ABI constructor inputs, one slot per input. -/

/-- The string-slot default chosen by the parameter name. -/
def tokenStringDefault (inputName : String) : JsonVal :=
  if strContains inputName "name" then JsonVal.str "MyToken"
  else if strContains inputName "symbol" then JsonVal.str "MTK"
  else JsonVal.str ""

/-- The user argument at a slot, when it is a string with nonempty trim. -/
def trimmedNonemptyStrAt (args : List JsonVal) (i : Nat) : Option String :=
  match args.get? i with
  | some (JsonVal.str s) => if jsTrim s ≠ "" then some (jsTrim s) else none
  | _ => none

/-- The numeric value read from the user slot for a uint-typed token
parameter (web3.ts lines 541-549): a user number is taken as is, a user
string goes through parseInt(s, 10) || 0, anything else is 0. -/
def tokenUintValue (args : List JsonVal) (i : Nat) : Int :=
  match args.get? i with
  | some (JsonVal.num n) => n
  | some (JsonVal.str s) => (jsParseInt s).getD 0
  | _ => 0

/-- One slot of the token argument rebuild (the forEach body of web3.ts
lines 518-585): string slots prefer user strings at indices 0 and 1, then
name-based defaults; uint slots convert the user value and substitute
name-based defaults when it is 0 (JavaScript numValue || default); address
slots require a 42-character 0x string; bool slots require a boolean; any
other type becomes 0. -/
def tokenSlot (args : List JsonVal) (i : Nat) (p : AbiParam) : JsonVal :=
  let inputType := p.ty.getD ""
  let inputName := p.name.getD ""
  if strContains inputType "string" then
    if i = 0 then
      match trimmedNonemptyStrAt args 0 with
      | some t => JsonVal.str t
      | none => tokenStringDefault inputName
    else if i = 1 then
      match trimmedNonemptyStrAt args 1 with
      | some t => JsonVal.str t
      | none => tokenStringDefault inputName
    else tokenStringDefault inputName
  else if strContains inputType "uint" then
    let numValue : Int := tokenUintValue args i
    let numValue : Int :=
      if strContains inputName "decimal" then
        if numValue = 0 then 18 else numValue
      else if strContains inputName "supply" || strContains inputName "amount" then
        if numValue = 0 then 1000000 else numValue
      else numValue
    JsonVal.num numValue
  else if strContains inputType "address" then
    match args.get? i with
    | some (JsonVal.str s) =>
      if strStartsWith s "0x" && s.length = 42 then JsonVal.str s
      else JsonVal.str zeroAddress
    | _ => JsonVal.str zeroAddress
  else if strContains inputType "bool" then
    match args.get? i with
    | some (JsonVal.bool b) => JsonVal.bool b
    | _ => JsonVal.bool false
  else JsonVal.num 0

/-- The rebuilt token argument list: one slot per constructor input. -/
def tokenTypedArgs (inputs : List AbiParam) (args : List JsonVal) : List JsonVal :=
  inputs.mapIdx (fun i p => tokenSlot args i p)

/-- The whole Arbitrum argument rewrite of the second revision (web3.ts
lines 496-614): token-named contracts rebuild the list from the ABI (empty
when the ABI has no constructor inputs); other contracts run the
per-argument coercion map when constructor inputs exist. -/
def arbitrumRewriteArgs (contractName : String) (abi : List AbiItem)
    (args : List JsonVal) : List JsonVal :=
  let constructorAbiItem := abi.find? (fun item => item.type == some "constructor")
  if strContains (jsToLower contractName) "token" then
    match constructorAbiItem.bind AbiItem.inputs with
    | some inputs => tokenTypedArgs inputs args
    | none => []
  else
    match constructorAbiItem.bind AbiItem.inputs with
    | some inputs => processArgsArb inputs args
    | none => args

/-! ## Deployment outcome (web3.ts lines 229-299 and part_002 lines 159-199)

The awaited chain interactions are oracles: sending the transaction and
waiting for the receipt may throw (`Except.error`), and a resolved wait may
carry no receipt (`Option`).  Errors thrown inside the inner try are
rethrown with a "Deployment failed: " prefix and land in the outer catch,
which produces the failure result. -/

/-- A transaction receipt as read by the code: status and the deployed
contract address (absent or possibly empty). -/
structure Receipt : Type where
  status : Nat
  contractAddress : Option String
deriving Repr, DecidableEq

/-- The sent transaction, of which only the hash is read. -/
structure TxInfo : Type where
  hash : String
deriving Repr, DecidableEq

/-- The DeploymentResult returned by deployContract. -/
structure DeploymentResult : Type where
  success : Bool
  contractAddress : Option String
  transactionHash : Option String
  error : Option String
deriving Repr, DecidableEq

/-- The failure result built by the outer catch block. -/
def failResult (msg : String) : DeploymentResult :=
  { success := false, contractAddress := none, transactionHash := none, error := some msg }

/-- receipt && receipt.status === 0. -/
def receiptStatusZero : Option Receipt → Bool
  | some r => r.status == 0
  | none => false

/-- The Arbitrum direct-deployment tail (web3.ts lines 237-258 and the
shared return at lines 284-299): send the raw transaction, wait, reject a
zero-status receipt, then require receipt?.contractAddress to be truthy
and report success with that address and the transaction hash. -/
def arbitrumDeployOutcome (sendResult : Except String TxInfo)
    (waitResult : Except String (Option Receipt)) : DeploymentResult :=
  match sendResult with
  | Except.error e => failResult ("Deployment failed: " ++ e)
  | Except.ok tx =>
    match waitResult with
    | Except.error e => failResult ("Deployment failed: " ++ e)
    | Except.ok receipt =>
      if receiptStatusZero receipt then
        failResult "Deployment failed: Transaction failed"
      else
        match receipt.bind Receipt.contractAddress with
        | none => failResult "Deployment failed: Deployment failed - contract address not available"
        | some addr =>
          if addr = "" then
            failResult "Deployment failed: Deployment failed - contract address not available"
          else
            { success := true
              contractAddress := some addr
              transactionHash := some tx.hash
              error := none }

/-- The standard factory-deploy tail (part_002 lines 159-199 and web3.ts
lines 259-299): deploy, require a deployment transaction, wait, reject a
zero-status receipt, and report success with the contract's own address —
a resolved wait that carries no receipt is not rejected. -/
def standardDeployOutcome (deployResult : Except String Unit)
    (deploymentTx : Option TxInfo)
    (waitResult : Except String (Option Receipt))
    (contractAddress : String) : DeploymentResult :=
  match deployResult with
  | Except.error e => failResult ("Deployment failed: " ++ e)
  | Except.ok _ =>
    match deploymentTx with
    | none => failResult "Deployment failed: Failed to get deployment transaction"
    | some tx =>
      match waitResult with
      | Except.error e => failResult ("Deployment failed: " ++ e)
      | Except.ok receipt =>
        if receiptStatusZero receipt then
          failResult "Deployment failed: Transaction failed"
        else
          { success := true
            contractAddress := some contractAddress
            transactionHash := some tx.hash
            error := none }

/-! ## Pseudo-compiler bytecode validation (gemini.ts, part_007 lines 92-101)

The model-returned bytecode is replaced by locally generated random hex
when it is falsy, lacks the 0x prefix, contains "PLACEHOLDER", or fails
the /^0x[0-9a-f]+$/i test.  The replacement concatenates '0x' with 100
draws of Math.floor(Math.random() * 16).toString(16); the random draws are
the `rand` oracle, each one a hex digit index below 16. -/

/-- The sixteen lowercase hex digit characters, as produced by
Number.prototype.toString(16) on 0..15. -/
def hexDigitsLower : List Char :=
  ['0', '1', '2', '3', '4'] ++ ['5', '6', '7', '8', '9'] ++ ['a', 'b', 'c'] ++ ['d', 'e', 'f']

/-- One random draw rendered as a hex character. -/
def hexDigitChar (n : Fin 16) : Char :=
  hexDigitsLower.get (Fin.cast (by rfl) n)

/-- A character the /[0-9a-f]/i class accepts. -/
def isHexDigitCI (c : Char) : Bool :=
  hexDigitsLower.contains c || ['A', 'B', 'C', 'D', 'E', 'F'].contains c

/-- The characters of "PLACEHOLDER". -/
def placeholderChars : List Char :=
  ['P', 'L', 'A', 'C', 'E', 'H', 'O', 'L', 'D', 'E', 'R']

/-- The /^0x[0-9a-f]+$/i test: a literal 0, a case-insensitive x, then at
least one hex character and nothing else. -/
def hexRegexTest : List Char → Bool
  | '0' :: x :: rest => (x == 'x' || x == 'X') && !rest.isEmpty && rest.all isHexDigitCI
  | _ => false

/-- The kept-as-is condition of part_007 lines 93-96, negated: the
bytecode is truthy, starts with 0x, has no PLACEHOLDER and passes the hex
regex. -/
def isValidBytecode : Option (List Char) → Bool
  | none => false
  | some bc =>
    !bc.isEmpty && ['0', 'x'].isPrefixOf bc && !(hasSub bc placeholderChars)
      && hexRegexTest bc

/-- '0x' concatenated with 100 random hex digits (part_007 lines 99-100). -/
def genBytecode (rand : Nat → Fin 16) : List Char :=
  '0' :: 'x' :: (List.range 100).map (fun i => hexDigitChar (rand i))

/-- The bytecode validation/repair step: keep a valid bytecode, replace an
invalid one by the generated random hex. -/
def fixBytecode (bc : Option (List Char)) (rand : Nat → Fin 16) : List Char :=
  if isValidBytecode bc then bc.getD [] else genBytecode rand

/-! # Theorems -/

/-- C6: for every chain identifier the fee strategy selector emits exactly
one fee shape — the two EIP-1559 fields with their fixed defaults (0.1 and
0.01 gwei) and no gasPrice when the chainId is 42161 or 421613, and a
fixed gasPrice (10 gwei) with neither EIP-1559 field for every other
chainId; never both shapes at once. -/
theorem feeStrategy_exclusive (chainId gasLimit : Nat) :
    ((chainId = 42161 ∨ chainId = 421613) →
      buildDeployOptions chainId gasLimit =
        { gasLimit := gasLimit, gasPrice := none,
          maxFeePerGas := some 100000000, maxPriorityFeePerGas := some 10000000 }) ∧
    ((chainId ≠ 42161 ∧ chainId ≠ 421613) →
      buildDeployOptions chainId gasLimit =
        { gasLimit := gasLimit, gasPrice := some 10000000000,
          maxFeePerGas := none, maxPriorityFeePerGas := none }) ∧
    ¬((buildDeployOptions chainId gasLimit).gasPrice.isSome = true ∧
      (buildDeployOptions chainId gasLimit).maxFeePerGas.isSome = true) := by
  unfold buildDeployOptions
  by_cases h : chainId = 42161 ∨ chainId = 421613
  · rw [if_pos h]
    exact ⟨fun _ => rfl, fun hc => absurd h (by tauto), by simp⟩
  · rw [if_neg h]
    exact ⟨fun hc => absurd hc h, fun _ => rfl, by simp⟩

/-- Witness for feeStrategy_exclusive at the Arbitrum chain id and at
mainnet. -/
theorem feeStrategy_exclusive_witness :
    buildDeployOptions 42161 5000000 =
      { gasLimit := 5000000, gasPrice := none,
        maxFeePerGas := some 100000000, maxPriorityFeePerGas := some 10000000 } ∧
    buildDeployOptions 1 21000 =
      { gasLimit := 21000, gasPrice := some 10000000000,
        maxFeePerGas := none, maxPriorityFeePerGas := none } :=
  ⟨(feeStrategy_exclusive 42161 5000000).1 (Or.inl rfl),
   (feeStrategy_exclusive 1 21000).2.1 ⟨by decide, by decide⟩⟩

/-- C10: a POST /api/convert body without a truthy solidityCode, and a
POST /api/compile body without a truthy rustCode or truthy contractName,
are rejected with HTTP 400, success false and a non-empty error message,
before the model gateway is invoked. -/
theorem routes_reject_missing_fields
    (cbody : ConvertRequestBody) (kbody : CompileRequestBody) :
    (jsTruthyStr cbody.solidityCode = false →
      ∃ resp, convertRoute cbody = RouteStep.reject resp ∧
        resp.status = 400 ∧ resp.success = false ∧ resp.error ≠ "" ∧
        (convertRoute cbody).invokesGateway = false) ∧
    ((jsTruthyStr kbody.rustCode = false ∨ jsTruthyStr kbody.contractName = false) →
      ∃ resp, compileRoute kbody = RouteStep.reject resp ∧
        resp.status = 400 ∧ resp.success = false ∧ resp.error ≠ "" ∧
        (compileRoute kbody).invokesGateway = false) := by
  constructor
  · intro h
    have hc : convertRoute cbody =
        RouteStep.reject { status := 400, success := false, error := "Solidity code is required" } := by
      simp [convertRoute, h]
    exact ⟨_, hc, rfl, rfl, by decide, by rw [hc]; rfl⟩
  · intro h
    by_cases hr : jsTruthyStr kbody.rustCode
    · have hcn : jsTruthyStr kbody.contractName = false := by
        rcases h with h | h
        · rw [h] at hr; exact absurd hr (by decide)
        · exact h
      have hc : compileRoute kbody =
          RouteStep.reject { status := 400, success := false, error := "Contract name is required" } := by
        simp [compileRoute, hr, hcn]
      exact ⟨_, hc, rfl, rfl, by decide, by rw [hc]; rfl⟩
    · rw [Bool.not_eq_true] at hr
      have hc : compileRoute kbody =
          RouteStep.reject { status := 400, success := false, error := "Rust code is required" } := by
        simp [compileRoute, hr]
      exact ⟨_, hc, rfl, rfl, by decide, by rw [hc]; rfl⟩

/-- Witness for routes_reject_missing_fields: an absent solidityCode and an
absent contractName. -/
theorem routes_reject_missing_fields_witness :
    ∃ resp, compileRoute { rustCode := some "code", contractName := none } =
      RouteStep.reject resp ∧
      resp.status = 400 ∧ resp.success = false ∧ resp.error ≠ "" ∧
      (compileRoute { rustCode := some "code", contractName := none }).invokesGateway
        = false :=
  (routes_reject_missing_fields { solidityCode := none }
    { rustCode := some "code", contractName := none }).2 (Or.inr rfl)

/-- C3 counterexample: on non-JSON argument text the normalizer returns
the empty list even though the ABI constructor declares one parameter, so
the output length is 0, not the parameter count 1. -/
theorem normalizeArgs_nonJson_cex :
    normalizeArgs none
      [{ type := some "constructor", inputs := some [{ name := some "a", ty := some "string" }] }]
      = [] ∧
    (normalizeArgs none
      [{ type := some "constructor", inputs := some [{ name := some "a", ty := some "string" }] }]).length
      ≠ 1 :=
  ⟨rfl, by decide⟩

/-- C3 amended: for any rawArgumentsText that JSON.parse rejects, the
catch block replaces the argument list by the empty list, whatever the
ABI's constructor parameter count is. -/
theorem normalizeArgs_nonJson (abi : List AbiItem) :
    normalizeArgs none abi = [] := rfl

/-- C5 counterexample: argument text parsing to the JSON string "ab" is
not substituted by the empty argument list — Object.values turns it into
the list of its single-character strings. -/
theorem normalizeArgs_jsonString_cex :
    normalizeArgs (some (JsonVal.str "ab")) [] = [JsonVal.str "a", JsonVal.str "b"] ∧
    (normalizeArgs (some (JsonVal.str "ab")) []).length ≠ 0 :=
  ⟨rfl, by decide⟩

/-- C5 amended: a parsed JSON number or boolean behaves like an empty
argument list (no own enumerable properties), parsed null yields the empty
list through the caught TypeError, and a parsed JSON string behaves like
the argument list of its single-character strings. -/
theorem normalizeArgs_nonContainer (abi : List AbiItem) (n : Int) (b : Bool) (s : String) :
    normalizeArgs (some (JsonVal.num n)) abi = normalizeArgs (some (JsonVal.arr [])) abi ∧
    normalizeArgs (some (JsonVal.bool b)) abi = normalizeArgs (some (JsonVal.arr [])) abi ∧
    normalizeArgs (some JsonVal.null) abi = [] ∧
    normalizeArgs (some (JsonVal.str s)) abi =
      normalizeArgs
        (some (JsonVal.arr (s.toList.map (fun c => JsonVal.str (String.singleton c))))) abi :=
  ⟨rfl, rfl, rfl, rfl⟩

/-- C7: the argument-normalization step never propagates an exception —
it always resolves with a list, and whenever the try body throws the
resolved list is the safe default (the empty list). -/
theorem parseArgsStep_total (parsed : Option JsonVal) (abi : List AbiItem) :
    parseArgsStep parsed abi = Except.ok (normalizeArgs parsed abi) ∧
    (∀ e, parseArgsBody parsed abi = Except.error e →
      parseArgsStep parsed abi = Except.ok []) := by
  constructor
  · unfold normalizeArgs parseArgsStep
    cases parseArgsBody parsed abi <;> rfl
  · intro e he
    unfold parseArgsStep
    rw [he]

/-- Witness for parseArgsStep_total: the try body throws on non-JSON text
and the step still resolves with the empty list. -/
theorem parseArgsStep_total_witness :
    parseArgsStep none [] = Except.ok (normalizeArgs none []) ∧
    parseArgsStep none [] = Except.ok [] :=
  ⟨(parseArgsStep_total none []).1,
   (parseArgsStep_total none []).2 "SyntaxError: Unexpected token in JSON" rfl⟩

/-- The padding loop resolves to the supplied arguments followed by one
type default per missing slot, provided every parameter carries a type. -/
theorem padArgsLoop_eq (inputs : List AbiParam) (args : List JsonVal)
    (hty : ∀ p ∈ inputs, (p.ty).isSome) :
    padArgsLoop inputs args =
      Except.ok (args ++ (inputs.drop args.length).map
        (fun p => defaultForType (p.ty.getD ""))) := by
  induction args using padArgsLoop.induct inputs with
  | case1 args h hnone =>
    have hmem : inputs.get ⟨args.length, h⟩ ∈ inputs := List.get_mem _ _ _
    have := hty _ hmem
    rw [hnone] at this
    exact absurd this (by decide)
  | case2 args h ty hsome ih =>
    rw [padArgsLoop]
    simp only [dif_pos h, hsome]
    rw [ih]
    have hdrop : inputs.drop args.length =
        inputs.get ⟨args.length, h⟩ :: inputs.drop (args.length + 1) := by
      rw [List.drop_eq_getElem_cons h]
      rfl
    rw [hdrop]
    simp only [List.map_cons, hsome, Option.getD_some, List.length_append,
      List.length_singleton]
    simp
  | case3 args h =>
    rw [padArgsLoop]
    rw [dif_neg h]
    rw [List.drop_eq_nil_of_le (by omega)]
    simp

/-- C2: when the ABI holds a constructor entry whose inputs all carry a
type, the normalizer output on a parsed argument array is the array
truncated to the parameter count, extended by the per-type defaults of the
missing slots — in particular it has exactly as many entries as the
constructor has parameters. -/
theorem normalizeArgs_reconciles_length (abi : List AbiItem) (cab : AbiItem)
    (inputs : List AbiParam) (args : List JsonVal)
    (hfind : abi.find? (fun item => item.type == some "constructor") = some cab)
    (hinp : cab.inputs = some inputs)
    (hty : ∀ p ∈ inputs, (p.ty).isSome) :
    normalizeArgs (some (JsonVal.arr args)) abi =
      args.take inputs.length ++ (inputs.drop args.length).map
        (fun p => defaultForType (p.ty.getD "")) ∧
    (normalizeArgs (some (JsonVal.arr args)) abi).length = inputs.length := by
  have hbody : parseArgsBody (some (JsonVal.arr args)) abi =
      Except.ok ((args ++ (inputs.drop args.length).map
        (fun p => defaultForType (p.ty.getD ""))).take inputs.length) := by
    unfold parseArgsBody
    simp only [jsArrayOrValues, hfind, hinp, padArgsLoop_eq inputs args hty]
  have hlen : ((inputs.drop args.length).map
      (fun p => defaultForType (p.ty.getD ""))).length = inputs.length - args.length := by
    rw [List.length_map, List.length_drop]
  have hout : normalizeArgs (some (JsonVal.arr args)) abi =
      args.take inputs.length ++ (inputs.drop args.length).map
        (fun p => defaultForType (p.ty.getD "")) := by
    unfold normalizeArgs parseArgsStep
    rw [hbody]
    rw [List.take_append_eq_append_take]
    rw [show inputs.length - args.length =
      ((inputs.drop args.length).map (fun p => defaultForType (p.ty.getD ""))).length
      from hlen.symm]
    rw [List.take_length]
  refine ⟨hout, ?_⟩
  rw [hout, List.length_append, List.length_take, hlen]
  omega

/-- Witness for normalizeArgs_reconciles_length: the two supplied
arguments of a four-parameter token constructor are padded to four
entries. -/
theorem normalizeArgs_reconciles_length_witness :
    (normalizeArgs
      (some (JsonVal.arr [JsonVal.str "MyToken", JsonVal.str "MTK"]))
      [{ type := some "constructor",
         inputs := some
           [{ name := some "name", ty := some "string" },
            { name := some "symbol", ty := some "string" },
            { name := some "decimals", ty := some "uint8" },
            { name := some "totalSupply", ty := some "uint256" }] }]).length = 4 :=
  (normalizeArgs_reconciles_length
    [{ type := some "constructor",
       inputs := some
         [{ name := some "name", ty := some "string" },
          { name := some "symbol", ty := some "string" },
          { name := some "decimals", ty := some "uint8" },
          { name := some "totalSupply", ty := some "uint256" }] }]
    { type := some "constructor",
      inputs := some
        [{ name := some "name", ty := some "string" },
         { name := some "symbol", ty := some "string" },
         { name := some "decimals", ty := some "uint8" },
         { name := some "totalSupply", ty := some "uint256" }] }
    [{ name := some "name", ty := some "string" },
     { name := some "symbol", ty := some "string" },
     { name := some "decimals", ty := some "uint8" },
     { name := some "totalSupply", ty := some "uint256" }]
    [JsonVal.str "MyToken", JsonVal.str "MTK"]
    rfl rfl (by decide)).2

/-- C4 counterexample: a slot declared "int256" — its type contains "int"
but not "uint" — supplied with the non-numeric string "abc" is not
coerced: both revisions of the coercion map pass the string through,
instead of the 0 the claim requires for int-typed slots. -/
theorem coercion_int_cex :
    processArgV2 "int256" (JsonVal.str "abc") = JsonVal.str "abc" ∧
    processArgV1 "int256" "Counter" 0 (JsonVal.str "abc") = JsonVal.str "abc" ∧
    JsonVal.str "abc" ≠ JsonVal.num 0 :=
  ⟨rfl, rfl, fun h => JsonVal.noConfusion h⟩

/-- C4 amended: the coercion fires only for declared types containing
"uint".  A uint-typed string slot becomes 0 when the string is empty or
converts to NaN; otherwise the second revision keeps the converted number
while the first revision keeps the original string.  The second revision
also replaces address-typed string values lacking the 0x prefix by the
zero address; apart from that, slots whose type contains neither "uint"
nor "address", and all non-string values, pass through unchanged. -/
theorem coercion_amended (inputType contractName : String) (index : Nat)
    (s : String) (arg : JsonVal) :
    (strContains inputType "uint" = true →
      processArgV2 inputType (JsonVal.str s) =
        (if s = "" || (jsNumber s).isNone then JsonVal.num 0
         else JsonVal.num ((jsNumber s).getD 0)) ∧
      processArgV1 inputType contractName index (JsonVal.str s) =
        (if s = "" || (jsNumber s).isNone then JsonVal.num 0 else JsonVal.str s)) ∧
    (strContains inputType "uint" = false →
      strContains inputType "address" = true → strStartsWith s "0x" = false →
      processArgV2 inputType (JsonVal.str s) = JsonVal.str zeroAddress) ∧
    (strContains inputType "uint" = false → strContains inputType "address" = false →
      processArgV2 inputType arg = arg) ∧
    (∀ v : JsonVal, (∀ t, v ≠ JsonVal.str t) →
      processArgV2 inputType v = v ∧
      processArgV1 inputType contractName index v = v) := by
  refine ⟨?_, ?_, ?_, ?_⟩
  · intro hu
    constructor
    · simp [processArgV2, hu]
    · simp [processArgV1, hu]
  · intro hu ha hs
    simp [processArgV2, hu, ha, hs]
  · intro hu ha
    cases arg <;> simp [processArgV2, hu, ha]
  · intro v hv
    cases v with
    | str t => exact absurd rfl (hv t)
    | _ => exact ⟨rfl, rfl⟩

/-- Witness for coercion_amended: the uint-typed slot with the
non-numeric string "abc" coerces to 0 in both revisions. -/
theorem coercion_amended_witness :
    processArgV2 "uint256" (JsonVal.str "abc") =
      (if "abc" = "" || (jsNumber "abc").isNone then JsonVal.num 0
       else JsonVal.num ((jsNumber "abc").getD 0)) ∧
    processArgV1 "uint256" "Counter" 0 (JsonVal.str "abc") =
      (if "abc" = "" || (jsNumber "abc").isNone then JsonVal.num 0
       else JsonVal.str "abc") :=
  (coercion_amended "uint256" "Counter" 0 "abc" JsonVal.null).1 rfl

/-- C9 counterexample: for a token contract whose constructor has one
uint8 parameter named "decimals", the valid user number 0 is not kept —
JavaScript numValue || 18 overrides the falsy 0 with the default 18. -/
theorem tokenArgs_decimalsZero_cex :
    arbitrumRewriteArgs "MyToken"
      [{ type := some "constructor",
         inputs := some [{ name := some "decimals", ty := some "uint8" }] }]
      [JsonVal.num 0] = [JsonVal.num 18] ∧
    JsonVal.num 18 ≠ JsonVal.num 0 := by
  refine ⟨rfl, ?_⟩
  intro h
  simp only [JsonVal.num.injEq] at h
  omega

/-- C9 amended: on the Arbitrum path, a contract whose name contains
"token" (case-insensitive) has its argument list replaced by one slot per
ABI constructor input; a uint-typed slot takes the converted user value
only when that value is nonzero, and otherwise falls back to 18 for
parameters named like "decimal", to 1000000 for parameters named like
"supply"/"amount", and to 0 for the rest. -/
theorem tokenArgs_amended
    (contractName : String) (abi : List AbiItem) (cab : AbiItem)
    (inputs : List AbiParam) (args : List JsonVal)
    (hname : strContains (jsToLower contractName) "token" = true)
    (hfind : abi.find? (fun item => item.type == some "constructor") = some cab)
    (hinp : cab.inputs = some inputs) :
    arbitrumRewriteArgs contractName abi args = tokenTypedArgs inputs args ∧
    (arbitrumRewriteArgs contractName abi args).length = inputs.length ∧
    (∀ i : Nat, ∀ hi : i < inputs.length,
      ∀ hi2 : i < (arbitrumRewriteArgs contractName abi args).length,
      (arbitrumRewriteArgs contractName abi args).get ⟨i, hi2⟩ =
        tokenSlot args i (inputs.get ⟨i, hi⟩)) ∧
    (∀ i : Nat, ∀ p : AbiParam,
      strContains (p.ty.getD "") "string" = false →
      strContains (p.ty.getD "") "uint" = true →
      ((strContains (p.name.getD "") "decimal" = true →
        tokenSlot args i p =
          JsonVal.num (if tokenUintValue args i = 0 then 18 else tokenUintValue args i)) ∧
      (strContains (p.name.getD "") "decimal" = false →
        (strContains (p.name.getD "") "supply" || strContains (p.name.getD "") "amount") = true →
        tokenSlot args i p =
          JsonVal.num (if tokenUintValue args i = 0 then 1000000 else tokenUintValue args i)) ∧
      (strContains (p.name.getD "") "decimal" = false →
        (strContains (p.name.getD "") "supply" || strContains (p.name.getD "") "amount") = false →
        tokenSlot args i p = JsonVal.num (tokenUintValue args i)))) := by
  have hrw : arbitrumRewriteArgs contractName abi args = tokenTypedArgs inputs args := by
    simp [arbitrumRewriteArgs, hname, hfind, hinp]
  refine ⟨hrw, ?_, ?_, ?_⟩
  · rw [hrw]
    unfold tokenTypedArgs
    exact List.length_mapIdx
  · intro i hi hi2
    rw [List.get_of_eq hrw ⟨i, hi2⟩]
    unfold tokenTypedArgs
    exact List.get_mapIdx inputs _ i hi
  · intro i p hs hu
    refine ⟨?_, ?_, ?_⟩
    · intro hd
      simp [tokenSlot, hs, hu, hd]
    · intro hd hsup
      simp [tokenSlot, hs, hu, hd, hsup]
    · intro hd hsup
      rw [Bool.or_eq_false_iff] at hsup
      simp [tokenSlot, hs, hu, hd, hsup.1, hsup.2]

/-- Witness for tokenArgs_amended: the one-parameter decimals constructor
of a token-named contract with the nonzero user value 7. -/
theorem tokenArgs_amended_witness :
    arbitrumRewriteArgs "MyToken"
      [{ type := some "constructor",
         inputs := some [{ name := some "decimals", ty := some "uint8" }] }]
      [JsonVal.num 7] =
      tokenTypedArgs [{ name := some "decimals", ty := some "uint8" }] [JsonVal.num 7] :=
  (tokenArgs_amended "MyToken"
    [{ type := some "constructor",
       inputs := some [{ name := some "decimals", ty := some "uint8" }] }]
    { type := some "constructor",
      inputs := some [{ name := some "decimals", ty := some "uint8" }] }
    [{ name := some "decimals", ty := some "uint8" }]
    [JsonVal.num 7] rfl rfl rfl).1

/-- C1 counterexample: on the standard deployment path a resolved wait
that carries no receipt is not treated as a failure — the code only
rejects a receipt whose status is zero, so with no receipt at all the
outcome is still reported as success. -/
theorem standardDeploy_noReceipt_cex :
    standardDeployOutcome (Except.ok ()) (some { hash := "0xtxhash" })
      (Except.ok none) "0xaddr" =
      { success := true, contractAddress := some "0xaddr",
        transactionHash := some "0xtxhash", error := none } := rfl

/-- C1 amended: a receipt with status zero always yields a failure, and on
the Arbitrum direct path success indeed requires an observed receipt with
non-zero status and a non-empty contract address; but on the standard path
success requires only that the deploy call succeeded, a deployment
transaction exists and the wait neither threw nor produced a zero-status
receipt — obtaining no receipt does not cause a failure there. -/
theorem deployOutcome_success_conditions
    (send : Except String TxInfo) (wait : Except String (Option Receipt))
    (dep : Except String Unit) (dtx : Option TxInfo) (addr : String) (r : Receipt) :
    (wait = Except.ok (some r) → r.status = 0 →
      (arbitrumDeployOutcome send wait).success = false ∧
      (standardDeployOutcome dep dtx wait addr).success = false) ∧
    ((arbitrumDeployOutcome send wait).success = true →
      ∃ tx rc a, send = Except.ok tx ∧ wait = Except.ok (some rc) ∧
        rc.status ≠ 0 ∧ rc.contractAddress = some a ∧ a ≠ "") ∧
    ((standardDeployOutcome dep dtx wait addr).success = true →
      dep = Except.ok () ∧ (∃ tx, dtx = some tx) ∧
      (∃ rc, wait = Except.ok rc ∧ receiptStatusZero rc = false)) := by
  refine ⟨?_, ?_, ?_⟩
  · intro hw hz
    subst hw
    constructor
    · cases send with
      | error e => rfl
      | ok tx => simp [arbitrumDeployOutcome, receiptStatusZero, hz, failResult]
    · cases dep with
      | error e => rfl
      | ok u =>
        cases dtx with
        | none => rfl
        | some tx => simp [standardDeployOutcome, receiptStatusZero, hz, failResult]
  · intro hsucc
    cases send with
    | error e => exact absurd hsucc (by simp [arbitrumDeployOutcome, failResult])
    | ok tx =>
      cases wait with
      | error e => exact absurd hsucc (by simp [arbitrumDeployOutcome, failResult])
      | ok receipt =>
        by_cases hz : receiptStatusZero receipt = true
        · exact absurd hsucc (by simp [arbitrumDeployOutcome, hz, failResult])
        · rw [Bool.not_eq_true] at hz
          cases hb : receipt.bind Receipt.contractAddress with
          | none =>
            exact absurd hsucc (by simp [arbitrumDeployOutcome, hz, hb, failResult])
          | some a =>
            by_cases ha : a = ""
            · exact absurd hsucc
                (by simp [arbitrumDeployOutcome, hz, hb, ha, failResult])
            · rcases Option.bind_eq_some.mp hb with ⟨rc, hrc, hrca⟩
              refine ⟨tx, rc, a, rfl, by rw [hrc], ?_, hrca, ha⟩
              intro hst
              rw [hrc] at hz
              simp [receiptStatusZero, hst] at hz
  · intro hsucc
    cases dep with
    | error e => exact absurd hsucc (by simp [standardDeployOutcome, failResult])
    | ok u =>
      cases dtx with
      | none => exact absurd hsucc (by simp [standardDeployOutcome, failResult])
      | some tx =>
        cases wait with
        | error e => exact absurd hsucc (by simp [standardDeployOutcome, failResult])
        | ok receipt =>
          by_cases hz : receiptStatusZero receipt = true
          · exact absurd hsucc (by simp [standardDeployOutcome, hz, failResult])
          · rw [Bool.not_eq_true] at hz
            exact ⟨rfl, ⟨tx, rfl⟩, receipt, rfl, hz⟩

/-- Witness for deployOutcome_success_conditions: a status-zero receipt
yields failure on both paths. -/
theorem deployOutcome_success_conditions_witness :
    (arbitrumDeployOutcome (Except.ok { hash := "0xh" })
      (Except.ok (some { status := 0, contractAddress := some "0xaddr" }))).success
      = false ∧
    (standardDeployOutcome (Except.ok ()) (some { hash := "0xh" })
      (Except.ok (some { status := 0, contractAddress := some "0xaddr" }))
      "0xaddr").success = false :=
  (deployOutcome_success_conditions (Except.ok { hash := "0xh" })
    (Except.ok (some { status := 0, contractAddress := some "0xaddr" }))
    (Except.ok ()) (some { hash := "0xh" }) "0xaddr"
    { status := 0, contractAddress := some "0xaddr" }).1 rfl rfl

/-- Every generated hex character is one of the sixteen lowercase digits. -/
theorem hexDigitChar_mem (n : Fin 16) : hexDigitChar n ∈ hexDigitsLower :=
  List.get_mem _ _ _

/-- A pattern starting with a character that does not occur in the text is
never a substring of it. -/
theorem hasSub_eq_false_of_head_notMem (s : List Char) (c : Char) (pat : List Char)
    (h : c ∉ s) : hasSub s (c :: pat) = false := by
  induction s with
  | nil => rfl
  | cons a t ih =>
    have hca : (c = a) → False := fun hc => h (hc ▸ List.mem_cons_self a t)
    have hct : c ∉ t := fun hm => h (List.mem_cons_of_mem a hm)
    rw [hasSub]
    rw [ih hct]
    simp [List.isPrefixOf]
    intro hc
    exact absurd hc hca

/-- C8: the repaired bytecode always starts with 0x, consists of hex
characters only after that prefix (at least one), and contains no
PLACEHOLDER text; whenever the model bytecode fails the validity test, the
output is the locally generated value — 0x followed by exactly 100 random
hex digits. -/
theorem fixBytecode_wellFormed (bc : Option (List Char)) (rand : Nat → Fin 16) :
    ['0', 'x'].isPrefixOf (fixBytecode bc rand) = true ∧
    ((fixBytecode bc rand).drop 2).all isHexDigitCI = true ∧
    ((fixBytecode bc rand).drop 2).isEmpty = false ∧
    hasSub (fixBytecode bc rand) placeholderChars = false ∧
    (isValidBytecode bc = false →
      fixBytecode bc rand = genBytecode rand ∧
      ((fixBytecode bc rand).drop 2).length = 100) := by
  by_cases hv : isValidBytecode bc = true
  · have hfix : fixBytecode bc rand = bc.getD [] := by
      unfold fixBytecode
      rw [if_pos hv]
    cases bc with
    | none => exact absurd hv (by decide)
    | some s =>
      have hv' := hv
      simp only [isValidBytecode, Bool.and_eq_true, Bool.not_eq_true'] at hv
      obtain ⟨⟨⟨hne, hpre⟩, hph⟩, hrx⟩ := hv
      rcases s with - | ⟨c0, - | ⟨c1, rest⟩⟩
      · exact absurd hpre (by decide)
      · exact absurd hpre (by simp [List.isPrefixOf])
      · simp only [List.isPrefixOf, Bool.and_eq_true, beq_iff_eq] at hpre
        obtain ⟨hc0, hc1, -⟩ := hpre
        subst hc0
        subst hc1
        simp only [hexRegexTest, Bool.and_eq_true, Bool.not_eq_true'] at hrx
        obtain ⟨⟨-, hrne⟩, hall⟩ := hrx
        rw [hfix]
        refine ⟨by simp [List.isPrefixOf], hall, by simp [hrne], hph, ?_⟩
        intro hcontra
        rw [hv'] at hcontra
        exact absurd hcontra (by decide)
  · rw [Bool.not_eq_true] at hv
    have hfix : fixBytecode bc rand = genBytecode rand := by
      unfold fixBytecode
      rw [hv]
      rfl
    have hmemchars : ∀ x ∈ (List.range 100).map (fun i => hexDigitChar (rand i)),
        x ∈ hexDigitsLower := by
      intro x hx
      rcases List.mem_map.mp hx with ⟨i, -, hi⟩
      rw [← hi]
      exact hexDigitChar_mem (rand i)
    refine ⟨?_, ?_, ?_, ?_, fun _ => ⟨hfix, ?_⟩⟩
    · rw [hfix]
      simp [genBytecode, List.isPrefixOf]
    · rw [hfix]
      show ((List.range 100).map (fun i => hexDigitChar (rand i))).all isHexDigitCI = true
      rw [List.all_eq_true]
      intro x hx
      exact (by decide : ∀ c ∈ hexDigitsLower, isHexDigitCI c = true) x (hmemchars x hx)
    · rw [hfix]
      show ((List.range 100).map (fun i => hexDigitChar (rand i))).isEmpty = false
      have : ((List.range 100).map (fun i => hexDigitChar (rand i))).length = 100 := by
        rw [List.length_map, List.length_range]
      cases hcase : (List.range 100).map (fun i => hexDigitChar (rand i)) with
      | nil => rw [hcase] at this; exact absurd this (by decide)
      | cons y ys => rfl
    · rw [hfix]
      have hp : 'P' ∉ genBytecode rand := by
        intro hmem
        simp only [genBytecode, List.mem_cons] at hmem
        rcases hmem with h1 | h2 | h3
        · exact absurd h1 (by decide)
        · exact absurd h2 (by decide)
        · have := hmemchars _ h3
          exact absurd this (by decide)
      exact hasSub_eq_false_of_head_notMem _ _ _ hp
    · rw [hfix]
      show ((List.range 100).map (fun i => hexDigitChar (rand i))).length = 100
      rw [List.length_map, List.length_range]

/-- Witness for fixBytecode_wellFormed: a bytecode containing PLACEHOLDER
is invalid and gets replaced by the 102-character generated string. -/
theorem fixBytecode_wellFormed_witness :
    fixBytecode (some "0xPLACEHOLDER12".data) (fun _ => 0) =
      genBytecode (fun _ => 0) ∧
    ((fixBytecode (some "0xPLACEHOLDER12".data) (fun _ => 0)).drop 2).length = 100 :=
  (fixBytecode_wellFormed (some "0xPLACEHOLDER12".data) (fun _ => 0)).2.2.2.2 rfl

end Sol2Rust
